import Mathlib

/-!
Verification development for `src/crawl_script.py`.

The Python functions of the crawl script are shallowly embedded as Lean
functions over `List Char` / `String`, `Option` models a Python function
that can return `None`, and an outer `Option` layer (where present) models
an uncaught Python exception (`none` = the call raises).  Regular
expression substitutions (`re.sub`) are embedded as left-to-right scanners
that replace each leftmost, non-overlapping match and never rescan the
replacement text, which is exactly the semantics of `re.sub`.
-/

namespace Crawl

/-! ### Character helpers -/

/-- The character `\x7b` (opening curly brace). -/
def lbrace : Char := Char.ofNat 123

/-- The character `\x7d` (closing curly brace). -/
def rbrace : Char := Char.ofNat 125

/-- The character `\x27` (single quote), used by the Python `repr` of strings. -/
def quoteChar : Char := Char.ofNat 39

/-- Python `[\x20-\x7E]`, the printable-ASCII class used at line 166. -/
def isPrintableAscii (c : Char) : Bool := 0x20 ≤ c.toNat && c.toNat ≤ 0x7E

/-- ASCII letter (Python `[a-zA-Z]`). -/
def isAsciiAlpha (c : Char) : Bool := c.isAlpha

/-- ASCII digit (Python `\d` on ASCII text). -/
def isAsciiDigit (c : Char) : Bool := c.isDigit

/-- Python `\w`.  The regex module is Unicode aware, but every string that
reaches a `\w` substitution in the script is an accepted URL, i.e. has been
filtered to printable ASCII by line 166, where `\w = [a-zA-Z0-9_]`. -/
def isWordChar (c : Char) : Bool := c.isAlpha || c.isDigit || c == '_'

/-- The character class retained by the filename sanitizer `[^\w\-]` at
lines 38 and 54 (word characters and the hyphen). -/
def isFilenameChar (c : Char) : Bool := isWordChar c || c == '-'

/-- Whitespace for Python `str.strip()` (the `str.isspace` class):
ASCII whitespace, the separator controls 0x1c-0x1f, and the Unicode
space characters. -/
def pyStrIsSpace (c : Char) : Bool :=
  c == ' ' || c == '\t' || c == '\n' || c == '\r' || c == '\x0b' || c == '\x0c' ||
  (0x1c ≤ c.toNat && c.toNat ≤ 0x1f) ||
  c.toNat == 0x85 || c.toNat == 0xa0 || c.toNat == 0x1680 ||
  (0x2000 ≤ c.toNat && c.toNat ≤ 0x200a) ||
  c.toNat == 0x2028 || c.toNat == 0x2029 || c.toNat == 0x202f ||
  c.toNat == 0x205f || c.toNat == 0x3000

/-- Whitespace for the regex class `\s` (no 0x1c-0x1f, otherwise as above). -/
def reSpace (c : Char) : Bool :=
  c == ' ' || c == '\t' || c == '\n' || c == '\r' || c == '\x0b' || c == '\x0c' ||
  c.toNat == 0x85 || c.toNat == 0xa0 || c.toNat == 0x1680 ||
  (0x2000 ≤ c.toNat && c.toNat ≤ 0x200a) ||
  c.toNat == 0x2028 || c.toNat == 0x2029 || c.toNat == 0x202f ||
  c.toNat == 0x205f || c.toNat == 0x3000

/-- Python `str.strip()`. -/
def pyStripList (l : List Char) : List Char :=
  ((l.dropWhile pyStrIsSpace).reverse.dropWhile pyStrIsSpace).reverse

/-- Python `str.lower()` (ASCII; every string it is applied to here is ASCII). -/
def pyLower (s : String) : String := (s.data.map Char.toLower).asString

/-! ### A generic `re.sub` engine

`reSubGo step fuel l` scans `l` left to right; at each position `step`
either recognizes a leftmost match, returning the replacement text and the
remainder after the match, or does not match, and the scanner emits one
character and moves on.  Replacements are not rescanned.  Every `step`
below consumes at least one character on success, so `fuel = l.length`
always suffices and the fuel-exhausted branch is unreachable. -/

def reSubGo (step : List Char → Option (List Char × List Char)) : Nat → List Char → List Char
  | _, [] => []
  | 0, l => l
  | Nat.succ fuel, c :: rest =>
    match step (c :: rest) with
    | some (repl, rem) => repl ++ reSubGo step fuel rem
    | none => c :: reSubGo step fuel rest

/-- One full `re.sub` pass of `step` over `l`. -/
def reSub (step : List Char → Option (List Char × List Char)) (l : List Char) : List Char :=
  reSubGo step l.length l

/-! ### `clean_markdown_content` (lines 61-92) -/

/-- Matcher for `⟨\d+⟩` (line 69): an angle bracket, one or more digits,
a closing angle bracket; replaced by nothing. -/
def citationStep : List Char → Option (List Char × List Char)
  | c :: rest =>
    if c == '⟨' then
      let ds := rest.takeWhile isAsciiDigit
      if ds.isEmpty then none
      else
        match rest.drop ds.length with
        | d :: tail => if d == '⟩' then some ([], tail) else none
        | [] => none
    else none
  | [] => none

/-- Whether the character left of a `\b` position is a non-word position. -/
def prevBoundary (prev : Option Char) : Bool :=
  match prev with
  | none => true
  | some p => !isWordChar p

/-- Whether the character right of a `\b` position is a non-word position. -/
def nextBoundary (l : List Char) : Bool :=
  match l with
  | [] => true
  | c :: _ => !isWordChar c

/-- Scanner for `re.sub(r'\bURL\b', '', text)` (line 72); `prev` is the
character just before the current scan position, the first argument is
fuel (one unit per consumed character, so the input length suffices). -/
def removeURLTokensGo : Nat → Option Char → List Char → List Char
  | _, _, [] => []
  | 0, _, l => l
  | Nat.succ fuel, prev, 'U' :: 'R' :: 'L' :: tail =>
    if prevBoundary prev && nextBoundary tail then removeURLTokensGo fuel (some 'L') tail
    else 'U' :: removeURLTokensGo fuel (some 'U') ('R' :: 'L' :: tail)
  | Nat.succ fuel, _, c :: rest => c :: removeURLTokensGo fuel (some c) rest

/-- `re.sub(r'\bURL\b', '', text)` (line 72): removes standalone `URL`
tokens. -/
def removeURLTokens (prev : Option Char) (l : List Char) : List Char :=
  removeURLTokensGo l.length prev l

/-- Matcher for `!\[([^\]]*)\]\([^)]*\)` (line 75): a markdown image,
replaced by its alt text. -/
def imageStep : List Char → Option (List Char × List Char)
  | '!' :: '[' :: rest =>
    let alt := rest.takeWhile (fun c => c != ']')
    match rest.drop alt.length with
    | ']' :: '(' :: rest2 =>
      let tgt := rest2.takeWhile (fun c => c != ')')
      match rest2.drop tgt.length with
      | ')' :: rem => some (alt, rem)
      | _ => none
    | _ => none
  | _ => none

/-- Matcher for `\n{3,}` (line 78): three or more newlines collapse to two. -/
def newlinesStep (l : List Char) : Option (List Char × List Char) :=
  let run := l.takeWhile (fun c => c == '\n')
  if 3 ≤ run.length then some (['\n', '\n'], l.drop run.length) else none

/-- Matcher for `\s+([,.!?])` (line 81): whitespace before punctuation is
dropped, the punctuation mark is kept. -/
def spacePunctStep (l : List Char) : Option (List Char × List Char) :=
  let run := l.takeWhile reSpace
  if run.isEmpty then none
  else
    match l.drop run.length with
    | p :: rem => if p == ',' || p == '.' || p == '!' || p == '?' then some ([p], rem) else none
    | [] => none

/-- Matcher for `[ \t]+` (line 84): runs of spaces and tabs collapse to one space. -/
def horizWsStep (l : List Char) : Option (List Char × List Char) :=
  let run := l.takeWhile (fun c => c == ' ' || c == '\t')
  if run.isEmpty then none else some ([' '], l.drop run.length)

/-- Matcher for `\[\]\([^)]*\)` (line 87): empty markdown links are removed. -/
def emptyLinkStep : List Char → Option (List Char × List Char)
  | '[' :: ']' :: '(' :: rest =>
    let tgt := rest.takeWhile (fun c => c != ')')
    match rest.drop tgt.length with
    | ')' :: rem => some ([], rem)
    | _ => none
  | _ => none

/-- Matcher for `\.{2,}` (line 90): runs of two or more periods collapse to one. -/
def dotsStep (l : List Char) : Option (List Char × List Char) :=
  let run := l.takeWhile (fun c => c == '.')
  if 2 ≤ run.length then some (['.'], l.drop run.length) else none

/-- `clean_markdown_content` (lines 61-92): the ordered cleaning passes.
The `content` argument at both call sites is a string, so `str(content)`
is the identity and falsiness is the empty-string test. -/
def clean_markdown_content (s : String) : String :=
  if s = "" then ""
  else
    let t1 := reSub citationStep s.data
    let t2 := removeURLTokens none t1
    let t3 := reSub imageStep t2
    let t4 := reSub newlinesStep t3
    let t5 := reSub spacePunctStep t4
    let t6 := reSub horizWsStep t5
    let t7 := reSub emptyLinkStep t6
    let t8 := reSub dotsStep t7
    (pyStripList t8).asString

/-! ### A model of `urllib.parse.urlparse`

Only the pieces the script reads are modelled: `scheme`, `netloc`, `path`
and `hostname`.  `urlparse` raises `ValueError` on a netloc with
mismatched square brackets; that abnormal exit is modelled as `none`
(no claim below distinguishes a raised `ValueError` from a rejection). -/

structure PyUrl where
  scheme : String
  netloc : String
  path : String
deriving DecidableEq

/-- Split a character list at its first colon, if any. -/
def findColonSplit : List Char → Option (List Char × List Char)
  | [] => none
  | c :: rest =>
    if c == ':' then some ([], rest)
    else (findColonSplit rest).map (fun pr => (c :: pr.1, pr.2))

/-- A character allowed in a URL scheme (letters, digits, `+`, `-`, `.`). -/
def schemeChar (c : Char) : Bool := c.isAlphanum || c == '+' || c == '-' || c == '.'

/-- Scheme extraction of `urlsplit`: the text before the first colon is the
scheme when it is non-empty, starts with a letter and uses only scheme
characters; otherwise the whole input is left untouched. -/
def splitScheme (l : List Char) : String × List Char :=
  match findColonSplit l with
  | none => ("", l)
  | some (pre, post) =>
    match pre with
    | [] => ("", l)
    | c0 :: _ =>
      if isAsciiAlpha c0 && pre.all schemeChar then ((pre.map Char.toLower).asString, post)
      else ("", l)

/-- The bracket checks of `urlsplit`: a netloc containing square brackets
raises `ValueError` unless the bracketed part is a valid IPv6 or IPvFuture
address literal.  The address-literal exception is not modelled: no claim
involves an IP-literal URL, and the script nowhere constructs one. -/
def bracketsBad (nl : List Char) : Bool := (nl.contains '[') || (nl.contains ']')

/-- Characters that terminate the netloc in `urlsplit`. -/
def endsNetloc (c : Char) : Bool := c == '/' || c == '?' || c == '#'

/-- Characters that terminate the path (start of query or fragment). -/
def endsPath (c : Char) : Bool := c == '?' || c == '#'

/-- `urllib.parse.urlsplit`, restricted to scheme, netloc and path. -/
def pyUrlsplitL (l : List Char) : Option PyUrl :=
  let sp := splitScheme l
  if List.isPrefixOf ['/', '/'] sp.2 then
    let nl := (sp.2.drop 2).takeWhile (fun c => !endsNetloc c)
    let after := (sp.2.drop 2).drop nl.length
    if bracketsBad nl then none
    else some ⟨sp.1, nl.asString, (after.takeWhile (fun c => !endsPath c)).asString⟩
  else some ⟨sp.1, "", (sp.2.takeWhile (fun c => !endsPath c)).asString⟩

/-- `urlparse` on a `String`. -/
def pyUrlsplit (s : String) : Option PyUrl := pyUrlsplitL s.data

/-- The part of a netloc after its last `@` (Python `netloc.rpartition(chr(64))[2]`). -/
def afterLastAt (l : List Char) : List Char := (l.reverse.takeWhile (fun c => c != '@')).reverse

/-- The `hostname` property of a parse result: strip the userinfo, take the
bracketed host or the text before the port colon, lowercase, and return
`None` when empty. -/
def pyHostnameL (netloc : List Char) : Option String :=
  let hi := afterLastAt netloc
  let hostPort :=
    if hi.contains '[' then ((hi.dropWhile (fun c => c != '[')).drop 1).takeWhile (fun c => c != ']')
    else hi.takeWhile (fun c => c != ':')
  let host := hostPort.map Char.toLower
  if host.isEmpty then none else some host.asString

/-! ### `clean_and_validate_url` (lines 158-186), the URLNormalizer -/

/-- Matcher for `\{[^}]*\}` (line 164): a brace group up to the first
closing brace, removed. -/
def braceStep : List Char → Option (List Char × List Char)
  | c :: rest =>
    if c == lbrace then
      let inner := rest.takeWhile (fun x => x != rbrace)
      match rest.drop inner.length with
      | _ :: rem => some ([], rem)
      | [] => none
    else none
  | [] => none

/-- Matcher for `\\[a-zA-Z]+\d*` (line 165): a backslash, one or more
letters, then any digits, removed. -/
def backslashStep : List Char → Option (List Char × List Char)
  | c :: rest =>
    if c == '\\' then
      let letters := rest.takeWhile isAsciiAlpha
      if letters.isEmpty then none
      else
        let digits := (rest.drop letters.length).takeWhile isAsciiDigit
        some ([], rest.drop (letters.length + digits.length))
    else none
  | [] => none

/-- Lines 164-167 of `clean_and_validate_url`: the three `re.sub` passes
followed by `strip()`. -/
def cleanedList (url : String) : List Char :=
  pyStripList ((reSub backslashStep (reSub braceStep url.data)).filter isPrintableAscii)

/-- Lines 178-179: prepend `https://` unless an `http://` or `https://`
prefix is already present. -/
def withScheme (l4 : List Char) : List Char :=
  if List.isPrefixOf "http://".data l4 || List.isPrefixOf "https://".data l4 then l4
  else "https://".data ++ l4

/-- `clean_and_validate_url` (lines 158-186): strip RTF artifacts and
non-printable characters, reject empties and comment lines, default the
scheme to `https`, and accept only when the parse has a scheme and a
netloc. -/
def clean_and_validate_url (url : String) : Option String :=
  if url = "" then none
  else if (cleanedList url).isEmpty then none
  else if (cleanedList url).headD ' ' == '#' then none
  else
    match pyUrlsplitL (withScheme (cleanedList url)) with
    | none => none
    | some p =>
      if p.netloc == "" || p.scheme == "" then none
      else some (withScheme (cleanedList url)).asString

/-! ### `get_filename_from_url` (lines 32-59), the ResultWriter filename -/

/-- Matcher for the literal substring `www.` (the `hostname.replace` call
at line 35 removes every occurrence). -/
def wwwStep (l : List Char) : Option (List Char × List Char) :=
  if List.isPrefixOf "www.".data l then some ([], l.drop 4) else none

/-- Python `path.strip(chr(47))`: remove slashes at both ends. -/
def stripSlashes (l : List Char) : List Char :=
  ((l.dropWhile (fun c => c == '/')).reverse.dropWhile (fun c => c == '/')).reverse

/-- The `re.sub` at lines 38 and 54: keep only word characters and hyphens. -/
def sanitizeName (s : String) : String := (s.data.filter isFilenameChar).asString

/-- Lines 35-38: hostname of the parse (or `unknown` when absent), every
occurrence of `www.` removed, sanitized. -/
def hostPartOf (p : PyUrl) : String :=
  sanitizeName (match pyHostnameL p.netloc.data with
    | some h => (reSub wwwStep h.data).asString
    | none => "unknown")

/-- Python `str.split(sep)` with a one-character separator. -/
def splitOnChar (sep : Char) : List Char → List (List Char)
  | [] => [[]]
  | c :: rest =>
    let r := splitOnChar sep rest
    if c == sep then [] :: r
    else (c :: r.headD []) :: r.tail

/-- Line 47: the final segment of the stripped path (`path_parts[-1]`,
with the empty string for an empty list, as in the source). -/
def pageRawOf (path : List Char) : String :=
  (((splitOnChar '/' path).map List.asString).getLast?).getD ""

/-- Lines 46-54: page name of a stripped path: final segment, text before
the first dot when a dot is present, sanitized. -/
def pageNameOf (path : List Char) : String :=
  sanitizeName (if (pageRawOf path).data.contains '.'
    then ((pageRawOf path).data.takeWhile (fun c => c != '.')).asString
    else pageRawOf path)

/-- Lines 40-59: assemble the filename from a successful parse. -/
def filenameOf (p : PyUrl) : String :=
  if (stripSlashes p.path.data).isEmpty
      || (stripSlashes p.path.data).asString = "index.html"
      || (stripSlashes p.path.data).asString = "index.php" then
    hostPartOf p ++ ".md"
  else if pageNameOf (stripSlashes p.path.data) != "" then
    hostPartOf p ++ "-" ++ pageNameOf (stripSlashes p.path.data) ++ ".md"
  else hostPartOf p ++ ".md"

/-- `get_filename_from_url` (lines 32-59).  `none` models the `ValueError`
that `urlparse` would raise (never reached from the accepted URLs the
script feeds this function). -/
def get_filename_from_url (url : String) : Option String :=
  (pyUrlsplitL url.data).map filenameOf

/-! ### JSON values and `extract_clean_content` (lines 94-114)

`Json` models the values `response.json()` can produce (object keys are
strings and, coming from `json.loads`, are unique).  Numbers are modelled
as integers; no claim depends on float formatting. -/

inductive Json where
  | null : Json
  | bool (b : Bool) : Json
  | num (n : Int) : Json
  | str (s : String) : Json
  | arr (l : List Json) : Json
  | obj (l : List (String × Json)) : Json

/-- Python truthiness of a JSON value. -/
def truthy : Json → Bool
  | Json.null => false
  | Json.bool b => b
  | Json.num n => n != 0
  | Json.str s => s ≠ ""
  | Json.arr l => !l.isEmpty
  | Json.obj l => !l.isEmpty

mutual

/-- Python `repr` of a JSON value.  The quote-selection and escaping of
`repr` on strings is simplified to plain single quotes: no claim evaluates
the repr of a string (the cleaner receives `str` content directly). -/
def pyRepr : Json → String
  | Json.null => "None"
  | Json.bool b => if b then "True" else "False"
  | Json.num n => toString n
  | Json.str s => String.singleton quoteChar ++ s ++ String.singleton quoteChar
  | Json.arr l => "[" ++ pyReprList l ++ "]"
  | Json.obj l => String.singleton lbrace ++ pyReprObjList l ++ String.singleton rbrace

/-- Comma-separated reprs of list elements. -/
def pyReprList : List Json → String
  | [] => ""
  | [j] => pyRepr j
  | j :: rest => pyRepr j ++ ", " ++ pyReprList rest

/-- Comma-separated reprs of dict items. -/
def pyReprObjList : List (String × Json) → String
  | [] => ""
  | [kv] => String.singleton quoteChar ++ kv.1 ++ String.singleton quoteChar ++ ": " ++ pyRepr kv.2
  | kv :: rest =>
    String.singleton quoteChar ++ kv.1 ++ String.singleton quoteChar ++ ": " ++ pyRepr kv.2 ++
      ", " ++ pyReprObjList rest

end

/-- Python `str()` of a JSON value. -/
def pyStr : Json → String
  | Json.str s => s
  | j => pyRepr j

/-- Python substring test `needle in hay` on strings. -/
def containsSeq (needle : List Char) : List Char → Bool
  | [] => needle.isEmpty
  | c :: rest => List.isPrefixOf needle (c :: rest) || containsSeq needle rest

/-- Python `needle in j`: key test on dicts, element equality on lists,
substring test on strings; `none` models the `TypeError` raised on the
remaining types. -/
def pyIn (needle : String) : Json → Option Bool
  | Json.obj kvs => some (kvs.any (fun kv => kv.1 == needle))
  | Json.arr l =>
    some (l.any (fun e => match e with | Json.str s => s == needle | _ => false))
  | Json.str s => some (containsSeq needle.data s.data)
  | _ => none

/-- Python `j[key]` with a string key: defined on dicts whose key is
present; `none` models the `TypeError`/`KeyError` raised otherwise. -/
def getItem (j : Json) (key : String) : Option Json :=
  match j with
  | Json.obj kvs => List.lookup key kvs
  | _ => none

/-- Python `j[0]` as used at line 98: head of a nonempty list, first
character of a nonempty string; `none` models the exception raised on the
remaining shapes (dict keys from JSON are strings, so `[0]` on a dict is
a `KeyError`). -/
def indexZero : Json → Option Json
  | Json.arr (h :: _) => some h
  | Json.arr [] => none
  | Json.str s =>
    match s.data with
    | c :: _ => some (Json.str (String.singleton c))
    | [] => none
  | _ => none

/-- `dict.get(key, default)`. -/
def jsonGetD (kvs : List (String × Json)) (key : String) (dflt : Json) : Json :=
  (List.lookup key kvs).getD dflt

/-- The `markdown_v2` block of `extract_clean_content` (lines 107-114),
including the final `return None`. -/
def tryMarkdownV2 (actual : Json) : Option (Option String) :=
  match pyIn "markdown_v2" actual with
  | none => none
  | some true =>
    match getItem actual "markdown_v2" with
    | none => none
    | some v2 =>
      if truthy v2 then
        match v2 with
        | Json.obj kvs2 =>
          match List.lookup "raw_markdown" kvs2 with
          | some content2 => some (some (clean_markdown_content (pyStr content2)))
          | none => some none
        | _ => some none
      else some none
  | some false => some none

/-- The second phase of `extract_clean_content` (lines 102-114), applied to
the effective object `actual_result`.  Result `none` models a raised
exception, `some none` models `return None`, `some (some s)` a returned
string. -/
def extractFromActual (actual : Json) : Option (Option String) :=
  match pyIn "markdown" actual with
  | none => none
  | some true =>
    match getItem actual "markdown" with
    | none => none
    | some content =>
      if truthy content then some (some (clean_markdown_content (pyStr content)))
      else tryMarkdownV2 actual
  | some false => tryMarkdownV2 actual

/-- Lines 96-100: the effective object `actual_result` — `results[0]` when
a truthy `results` field is present on a dict body, the body itself
otherwise; `none` models the exception `result[0]` can raise. -/
def selectActual : Json → Option Json
  | Json.obj kvs =>
    (match List.lookup "results" kvs with
     | some r => if truthy r then indexZero r else some (Json.obj kvs)
     | none => some (Json.obj kvs))
  | j => some j

/-- `extract_clean_content` (lines 94-114): select the effective object,
then try `markdown` and `markdown_v2.raw_markdown`. -/
def extract_clean_content (j : Json) : Option (Option String) :=
  match selectActual j with
  | none => none
  | some actual => extractFromActual actual

/-! ### `wait_for_completion` (lines 116-156), the TaskPoller

The loop issues one HTTP GET per candidate endpoint per round.  The
network is abstracted as an oracle mapping (round, endpoint index) to the
outcome of that GET: `exn` for a raised transport exception, otherwise the
status code and the value of `response.json()` (`none` when `.json()`
raises).  Endpoint index `e` corresponds to `endpoints t_id` entry `e`.
The `time.sleep(5)` between rounds has no observable effect here. -/

/-- The candidate status endpoints of line 118, in order. -/
def endpoints (t_id : String) : List String :=
  ["/task/" ++ t_id, "/tasks/" ++ t_id, "/result/" ++ t_id]

/-- Outcome of one HTTP GET against one candidate endpoint. -/
inductive AttemptOutcome where
  | exn : AttemptOutcome
  | resp (code : Nat) (body : Option Json) : AttemptOutcome

/-- The four exits of `wait_for_completion`: `saved` is the only exit that
writes an output file (`save_markdown`, line 137) and returns `True`;
`noContent` is the `No content found in completed result` exit (line 141);
`taskFailed` the `Task failed` exit (line 145); `timedOut` the fall-out of
the 24-round loop (line 156).  The last three all return `False`. -/
inductive PollExit where
  | saved (content : String) : PollExit
  | noContent : PollExit
  | taskFailed : PollExit
  | timedOut : PollExit
deriving DecidableEq

/-- What one endpoint attempt does to the control flow of its round:
`ret` leaves the whole function, `brk` ends the round (`break`), `cont`
moves to the next candidate endpoint (fall-through, non-200, or any
exception swallowed by the bare `except`). -/
inductive StepAction where
  | ret (e : PollExit) : StepAction
  | brk : StepAction
  | cont : StepAction
deriving DecidableEq

/-- Result of one full round over the candidate list. -/
inductive RoundResult where
  | terminal (e : PollExit) : RoundResult
  | moveOn : RoundResult
deriving DecidableEq

/-- Line 128, the status string of a JSON dict body: look up the `status`
key with the empty string as default, convert with `str`, lowercase. -/
def statusOf (kvs : List (String × Json)) : String :=
  pyLower (pyStr (jsonGetD kvs "status" (Json.str "")))

/-- Lines 122-151: classify one endpoint attempt.  A non-200 response and
every raised exception (transport, `.json()`, `.get` on a non-dict body,
or a raise inside `extract_clean_content`) fall through to the next
candidate endpoint. -/
def classifyAttempt : AttemptOutcome → StepAction
  | AttemptOutcome.exn => StepAction.cont
  | AttemptOutcome.resp code (some (Json.obj kvs)) =>
    if code = 200 then
      if statusOf kvs == "completed" || statusOf kvs == "success"
          || statusOf kvs == "finished" then
        match extract_clean_content (jsonGetD kvs "result" (Json.obj kvs)) with
        | none => StepAction.cont
        | some none => StepAction.ret PollExit.noContent
        | some (some c) =>
          if c == "" then StepAction.ret PollExit.noContent
          else StepAction.ret (PollExit.saved c)
      else if statusOf kvs == "failed" || statusOf kvs == "error" then
        StepAction.ret PollExit.taskFailed
      else if statusOf kvs == "pending" || statusOf kvs == "running" then StepAction.brk
      else StepAction.cont
    else StepAction.cont
  | AttemptOutcome.resp _ _ => StepAction.cont

/-- The inner `for endpoint in endpoints` loop of lines 121-151. -/
def processRound : List AttemptOutcome → RoundResult
  | [] => RoundResult.moveOn
  | o :: rest =>
    match classifyAttempt o with
    | StepAction.ret e => RoundResult.terminal e
    | StepAction.brk => RoundResult.moveOn
    | StepAction.cont => processRound rest

/-- The three attempts of round `a`, one per candidate endpoint. -/
def roundOutcomes (oracle : Nat → Nat → AttemptOutcome) (a : Nat) : List AttemptOutcome :=
  [oracle a 0, oracle a 1, oracle a 2]

/-- The outer `for attempt in range(24)` loop: `a` is the current round
index, the second argument the number of rounds left. -/
def pollGo (oracle : Nat → Nat → AttemptOutcome) : Nat → Nat → PollExit
  | _, 0 => PollExit.timedOut
  | a, Nat.succ k =>
    match processRound (roundOutcomes oracle a) with
    | RoundResult.terminal e => e
    | RoundResult.moveOn => pollGo oracle (a + 1) k

/-- `wait_for_completion` (lines 116-156) as a function of the network
oracle. -/
def wait_for_completion (oracle : Nat → Nat → AttemptOutcome) : PollExit :=
  pollGo oracle 0 24

/-! ### Concrete poll responses and oracles used in the claims below -/

/-- A 200 response whose status string maps to no recognized status. -/
def unrecResp : AttemptOutcome :=
  AttemptOutcome.resp 200 (some (Json.obj [("status", Json.str "weird")]))

/-- A 200 response with status `pending`. -/
def pendingResp : AttemptOutcome :=
  AttemptOutcome.resp 200 (some (Json.obj [("status", Json.str "pending")]))

/-- A 200 response with status `failed`. -/
def failedResp : AttemptOutcome :=
  AttemptOutcome.resp 200 (some (Json.obj [("status", Json.str "failed")]))

/-- A 200 response with status `completed` and extractable markdown `Hi`. -/
def completedHi : AttemptOutcome :=
  AttemptOutcome.resp 200 (some (Json.obj
    [("status", Json.str "completed"), ("result", Json.obj [("markdown", Json.str "Hi")])]))

/-- A 404 response. -/
def notFound : AttemptOutcome := AttemptOutcome.resp 404 none

/-- A 200 response with status `completed` whose body has no recognized
content field. -/
def completedMiss : AttemptOutcome :=
  AttemptOutcome.resp 200 (some (Json.obj [("status", Json.str "completed")]))

/-- Oracle: round 0 answers unrecognized-200 on the first endpoint and a
completed result on the second; everything else is 404. -/
def pollOracleA : Nat → Nat → AttemptOutcome := fun a e =>
  if a = 0 && e = 0 then unrecResp else if a = 0 && e = 1 then completedHi else notFound

/-- Oracle: like `pollOracleA` but every attempt after round 0, endpoint 0
is 404.  It agrees with `pollOracleA` on round 0, endpoint 0. -/
def pollOracleB : Nat → Nat → AttemptOutcome := fun a e =>
  if a = 0 && e = 0 then unrecResp else notFound

/-! ### Helper lemmas -/

theorem data_asString (l : List Char) : (l.asString).data = l := rfl

theorem data_append (s t : String) : (s ++ t).data = s.data ++ t.data := rfl

theorem all_filter_self (q : Char → Bool) (l : List Char) :
    ((l.filter q).all q) = true := by
  induction l with
  | nil => rfl
  | cons c cs ih =>
    by_cases hc : q c <;> simp [List.filter_cons, hc, ih]

theorem isPrefixOf_exists :
    ∀ (p l : List Char), List.isPrefixOf p l = true → ∃ t, l = p ++ t
  | [], l, _ => ⟨l, rfl⟩
  | a :: p, [], h => by simp [List.isPrefixOf] at h
  | a :: p, b :: l, h => by
    simp only [List.isPrefixOf, Bool.and_eq_true, beq_iff_eq] at h
    obtain ⟨t, ht⟩ := isPrefixOf_exists p l h.2
    exact ⟨t, by simp [h.1, ht]⟩

theorem scheme_http (t : List Char) :
    splitScheme ('h' :: 't' :: 't' :: 'p' :: ':' :: t) = ("http", t) := rfl

theorem scheme_https (t : List Char) :
    splitScheme ('h' :: 't' :: 't' :: 'p' :: 's' :: ':' :: t) = ("https", t) := rfl

theorem urlsplit_scheme_http (t : List Char) (p : PyUrl)
    (h : pyUrlsplitL ('h' :: 't' :: 't' :: 'p' :: ':' :: '/' :: '/' :: t) = some p) :
    p.scheme = "http" := by
  unfold pyUrlsplitL at h
  rw [scheme_http] at h
  simp only [List.isPrefixOf, beq_self_eq_true, Bool.and_self, if_true] at h
  split at h
  · exact absurd h (by simp)
  · rw [Option.some_inj] at h
    rw [← h]

theorem urlsplit_scheme_https (t : List Char) (p : PyUrl)
    (h : pyUrlsplitL ('h' :: 't' :: 't' :: 'p' :: 's' :: ':' :: '/' :: '/' :: t) = some p) :
    p.scheme = "https" := by
  unfold pyUrlsplitL at h
  rw [scheme_https] at h
  simp only [List.isPrefixOf, beq_self_eq_true, Bool.and_self, if_true] at h
  split at h
  · exact absurd h (by simp)
  · rw [Option.some_inj] at h
    rw [← h]

theorem withScheme_shape (l4 : List Char) :
    (∃ t, withScheme l4 = 'h' :: 't' :: 't' :: 'p' :: ':' :: '/' :: '/' :: t) ∨
    (∃ t, withScheme l4 = 'h' :: 't' :: 't' :: 'p' :: 's' :: ':' :: '/' :: '/' :: t) := by
  unfold withScheme
  by_cases h1 : List.isPrefixOf "http://".data l4 = true
  · obtain ⟨t, ht⟩ := isPrefixOf_exists _ _ h1
    rw [h1]
    left
    exact ⟨t, by simpa using ht⟩
  · by_cases h2 : List.isPrefixOf "https://".data l4 = true
    · obtain ⟨t, ht⟩ := isPrefixOf_exists _ _ h2
      rw [h2]
      right
      refine ⟨t, ?_⟩
      simp only [Bool.or_true, if_true]
      simpa using ht
    · right
      refine ⟨l4, ?_⟩
      simp only [Bool.not_eq_true] at h1 h2
      rw [h1, h2]
      rfl

theorem accepted_destruct (u v : String) (h : clean_and_validate_url u = some v) :
    ∃ p, pyUrlsplit v = some p ∧ (p.scheme = "http" ∨ p.scheme = "https") ∧ p.netloc ≠ "" := by
  unfold clean_and_validate_url at h
  split at h
  · exact absurd h (by simp)
  · split at h
    · exact absurd h (by simp)
    · split at h
      · exact absurd h (by simp)
      · rcases hp : pyUrlsplitL (withScheme (cleanedList u)) with _ | p0
        · rw [hp] at h
          exact absurd h (by simp)
        · rw [hp] at h
          split at h
          · exact absurd h (by simp)
          · rename_i x1 p1 heq
            injection heq with heq1
            subst heq1
            split at h
            · exact absurd h (by simp)
            · rw [Option.some_inj] at h
              rename_i hguard
              simp only [Bool.or_eq_true, beq_iff_eq, not_or] at hguard
              refine ⟨p0, ?_, ?_, hguard.1⟩
              · rw [← h]
                unfold pyUrlsplit
                rw [data_asString]
                exact hp
              · rcases withScheme_shape (cleanedList u) with ⟨t, ht⟩ | ⟨t, ht⟩
                · rw [ht] at hp
                  exact Or.inl (urlsplit_scheme_http t p0 hp)
                · rw [ht] at hp
                  exact Or.inr (urlsplit_scheme_https t p0 hp)

theorem sanitizeName_all (s : String) : ((sanitizeName s).data.all isFilenameChar) = true := by
  unfold sanitizeName
  rw [data_asString]
  exact all_filter_self _ _

theorem filenameOf_shape (p : PyUrl) :
    ∃ stem : String, filenameOf p = stem ++ ".md" ∧ (stem.data.all isFilenameChar) = true := by
  unfold filenameOf
  split
  · exact ⟨hostPartOf p, rfl, sanitizeName_all _⟩
  · split
    · refine ⟨hostPartOf p ++ "-" ++ pageNameOf (stripSlashes p.path.data), rfl, ?_⟩
      rw [data_append, data_append]
      simp only [List.all_append, Bool.and_eq_true]
      exact ⟨⟨sanitizeName_all _, by decide⟩, sanitizeName_all _⟩
    · exact ⟨hostPartOf p, rfl, sanitizeName_all _⟩

theorem lookup_of_any (k : String) :
    ∀ (kvs : List (String × Json)), kvs.any (fun kv => kv.1 == k) = true →
      ∃ v, List.lookup k kvs = some v := by
  intro kvs h
  induction kvs with
  | nil => simp at h
  | cons kv rest ih =>
    rw [List.any_cons, Bool.or_eq_true] at h
    rcases h with h | h
    · rw [beq_iff_eq] at h
      refine ⟨kv.2, ?_⟩
      simp [List.lookup, h]
    · by_cases hk : k == kv.1
      · exact ⟨kv.2, by simp [List.lookup, hk]⟩
      · obtain ⟨v, hv⟩ := ih h
        refine ⟨v, ?_⟩
        simp only [List.lookup]
        rw [Bool.not_eq_true] at hk
        rw [hk]
        exact hv

theorem tryMarkdownV2_obj_ne_none (kvs : List (String × Json)) :
    tryMarkdownV2 (Json.obj kvs) ≠ none := by
  unfold tryMarkdownV2
  split
  · rename_i heq
    simp [pyIn] at heq
  · rename_i heq
    simp only [pyIn, Option.some_inj] at heq
    obtain ⟨v, hv⟩ := lookup_of_any "markdown_v2" kvs heq
    split
    · rename_i heq2
      rw [getItem] at heq2
      rw [hv] at heq2
      exact absurd heq2 (by simp)
    · split
      · split
        · split <;> simp
        · simp
      · simp
  · simp

theorem extractFromActual_obj_ne_none (kvs : List (String × Json)) :
    extractFromActual (Json.obj kvs) ≠ none := by
  unfold extractFromActual
  split
  · rename_i heq
    simp [pyIn] at heq
  · rename_i heq
    simp only [pyIn, Option.some_inj] at heq
    obtain ⟨v, hv⟩ := lookup_of_any "markdown" kvs heq
    split
    · rename_i heq2
      rw [getItem] at heq2
      rw [hv] at heq2
      exact absurd heq2 (by simp)
    · split
      · simp
      · exact tryMarkdownV2_obj_ne_none kvs
  · exact tryMarkdownV2_obj_ne_none kvs

theorem tryMarkdownV2_clean (actual : Json) (s : String)
    (h : tryMarkdownV2 actual = some (some s)) :
    ∃ c, s = clean_markdown_content c := by
  unfold tryMarkdownV2 at h
  split at h
  · exact absurd h (by simp)
  · split at h
    · exact absurd h (by simp)
    · split at h
      · split at h
        · split at h
          · rw [Option.some_inj, Option.some_inj] at h
            exact ⟨_, h.symm⟩
          · exact absurd h (by simp)
        · exact absurd h (by simp)
      · exact absurd h (by simp)
  · exact absurd h (by simp)

theorem extractFromActual_clean (actual : Json) (s : String)
    (h : extractFromActual actual = some (some s)) :
    ∃ c, s = clean_markdown_content c := by
  unfold extractFromActual at h
  split at h
  · exact absurd h (by simp)
  · split at h
    · exact absurd h (by simp)
    · split at h
      · rw [Option.some_inj, Option.some_inj] at h
        exact ⟨_, h.symm⟩
      · exact tryMarkdownV2_clean actual s h
  · exact tryMarkdownV2_clean actual s h

theorem extractFromActual_found (kvs : List (String × Json)) (content : Json)
    (hany : kvs.any (fun kv => kv.1 == "markdown") = true)
    (hlk : List.lookup "markdown" kvs = some content)
    (htr : truthy content = true) :
    extractFromActual (Json.obj kvs) =
      some (some (clean_markdown_content (pyStr content))) := by
  have hin : pyIn "markdown" (Json.obj kvs) = some true := by simp [pyIn, hany]
  have hget : getItem (Json.obj kvs) "markdown" = some content := by simp [getItem, hlk]
  unfold extractFromActual
  split
  · rename_i heq
    rw [hin] at heq
    exact Option.noConfusion heq
  · split
    · rename_i heq2
      rw [hget] at heq2
      exact Option.noConfusion heq2
    · rename_i heq heq2
      rw [hget] at heq2
      rw [Option.some_inj] at heq2
      subst heq2
      rw [if_pos htr]
  · rename_i heq
    rw [hin] at heq
    rw [Option.some_inj] at heq
    exact Bool.noConfusion heq

theorem classify_non200 (code : Nat) (body : Option Json) (h : code ≠ 200) :
    classifyAttempt (AttemptOutcome.resp code body) = StepAction.cont := by
  rcases body with _ | j
  · rfl
  · rcases j with _ | b | n | s | l | kvs
    · rfl
    · rfl
    · rfl
    · rfl
    · rfl
    · simp only [classifyAttempt]
      rw [if_neg h]

theorem processRound_all_cont (l : List AttemptOutcome)
    (h : ∀ o ∈ l, classifyAttempt o = StepAction.cont) :
    processRound l = RoundResult.moveOn := by
  induction l with
  | nil => rfl
  | cons o rest ih =>
    unfold processRound
    rw [h o (by simp)]
    exact ih (fun x hx => h x (by simp [hx]))

theorem pollGo_all_moveOn (oracle : Nat → Nat → AttemptOutcome) :
    ∀ (k a : Nat),
      (∀ b, b < a + k → processRound (roundOutcomes oracle b) = RoundResult.moveOn) →
      pollGo oracle a k = PollExit.timedOut := by
  intro k
  induction k with
  | zero => intro a _; rfl
  | succ k ih =>
    intro a h
    unfold pollGo
    rw [h a (by omega)]
    exact ih (a + 1) (fun b hb => h b (by omega))

theorem pollGo_reach (oracle : Nat → Nat → AttemptOutcome) (x : PollExit) :
    ∀ (j s k : Nat), j < k →
      (∀ i, i < j → processRound (roundOutcomes oracle (s + i)) = RoundResult.moveOn) →
      processRound (roundOutcomes oracle (s + j)) = RoundResult.terminal x →
      pollGo oracle s k = x := by
  intro j
  induction j with
  | zero =>
    intro s k hk _ hterm
    rcases k with _ | k
    · omega
    · unfold pollGo
      rw [show s + 0 = s from rfl] at hterm
      rw [hterm]
  | succ j ih =>
    intro s k hk hmove hterm
    rcases k with _ | k
    · omega
    · unfold pollGo
      have h0 := hmove 0 (by omega)
      rw [show s + 0 = s from rfl] at h0
      rw [h0]
      refine ih (s + 1) k (by omega) ?_ ?_
      · intro i hi
        have := hmove (i + 1) (by omega)
        rw [show s + (i + 1) = s + 1 + i by omega] at this
        exact this
      · rw [show s + 1 + j = s + (j + 1) by omega]
        exact hterm

/-! ### The claims -/

/-- C1, counterexample.  The claim predicts filenames `example-com-my-post.md`
and `example-com.md`.  The sanitizer removes every character outside
`[\w\-]` from the hostname, so the dot of `example.com` is deleted, not
replaced by a hyphen: the code produces `examplecom-my-post.md` and
`examplecom.md`. -/
theorem c1_counterexample :
    get_filename_from_url "https://example.com/blog/my-post.html" = some "examplecom-my-post.md" ∧
    "examplecom-my-post.md" ≠ "example-com-my-post.md" ∧
    get_filename_from_url "https://example.com/" = some "examplecom.md" ∧
    "examplecom.md" ≠ "example-com.md" :=
  ⟨rfl, by decide, rfl, by decide⟩

/-- C1, amended.  For the input `example.com/blog/my-post.html` the
normalizer yields `https://example.com/blog/my-post.html` and the filename
derivation produces `examplecom-my-post.md`; for `https://example.com/`
the derived filename is `examplecom.md`. -/
theorem c1_amended_scenarios :
    clean_and_validate_url "example.com/blog/my-post.html" =
        some "https://example.com/blog/my-post.html" ∧
    get_filename_from_url "https://example.com/blog/my-post.html" = some "examplecom-my-post.md" ∧
    get_filename_from_url "https://example.com/" = some "examplecom.md" :=
  ⟨rfl, rfl, rfl⟩

/-- C2.  The claim states `clean (clean s) = clean s` for every string; the
code violates it.  On `⟨⟨1⟩2⟩` the citation pass removes the inner marker
`⟨1⟩` and leaves `⟨2⟩` (re.sub does not rescan), and a second application
removes `⟨2⟩` as well, so the two sides differ. -/
theorem c2_clean_not_idempotent :
    clean_markdown_content (clean_markdown_content "⟨⟨1⟩2⟩") ≠ clean_markdown_content "⟨⟨1⟩2⟩" ∧
    clean_markdown_content "⟨⟨1⟩2⟩" = "⟨2⟩" ∧
    clean_markdown_content "⟨2⟩" = "" :=
  ⟨by decide, rfl, rfl⟩

/-- C3.  The claim states that normalization is idempotent where it
succeeds; the code violates it.  The input `example.com/` followed by two
backslashes and `a1b` normalizes to `https://example.com/` followed by a
backslash and `b` (the RTF pass consumes one backslash, `a` and `1`, and
re.sub does not rescan), and normalizing that output strips the remaining
backslash command, giving a different URL. -/
theorem c3_normalize_not_idempotent :
    clean_and_validate_url "example.com/\\\\a1b" = some "https://example.com/\\b" ∧
    clean_and_validate_url "https://example.com/\\b" = some "https://example.com/" ∧
    ("https://example.com/" : String) ≠ "https://example.com/\\b" :=
  ⟨rfl, rfl, by decide⟩

/-- C4.  Every URL string accepted by the normalizer parses with a scheme
in the set containing http and https, and with a non-empty host/authority
component. -/
theorem c4_accepted_scheme_host (u v : String) (h : clean_and_validate_url u = some v) :
    ∃ p, pyUrlsplit v = some p ∧ (p.scheme = "http" ∨ p.scheme = "https") ∧ p.netloc ≠ "" :=
  accepted_destruct u v h

/-- C4 witness: the theorem applied to the accepted input `example.com/`. -/
theorem c4_witness :
    ∃ p, pyUrlsplit "https://example.com/" = some p ∧
      (p.scheme = "http" ∨ p.scheme = "https") ∧ p.netloc ≠ "" :=
  c4_accepted_scheme_host "example.com/" "https://example.com/" rfl

/-- C5, counterexample.  The claim states that extract is total over every
JSON body, including null; in the code `extract_clean_content(None)`
raises `TypeError` (`in` on a non-container), modelled here by the outer
`none`. -/
theorem c5_counterexample : extract_clean_content Json.null = none := rfl

/-- C5, amended.  Extract is total (an extraction miss is a returned
absence, never a raised exception) over JSON object bodies whose
`results` field, when present and truthy, is a nonempty array with an
object as first element; on other bodies (null, numbers, booleans, or
shapes that route a string lookup into a non-object) it can raise. -/
theorem c5_amended_total_on_objects (kvs : List (String × Json))
    (h : ∀ r, List.lookup "results" kvs = some r → truthy r = true →
      ∃ t kvs2, r = Json.arr (Json.obj kvs2 :: t)) :
    extract_clean_content (Json.obj kvs) ≠ none := by
  unfold extract_clean_content
  rcases hl : List.lookup "results" kvs with _ | r
  · rw [show selectActual (Json.obj kvs) = some (Json.obj kvs) from by
      simp only [selectActual]; rw [hl]]
    exact extractFromActual_obj_ne_none kvs
  · rcases ht : truthy r with _ | _
    · rw [show selectActual (Json.obj kvs) = some (Json.obj kvs) from by
        simp only [selectActual]
        rw [hl]
        show (if truthy r = true then indexZero r else some (Json.obj kvs)) =
          some (Json.obj kvs)
        rw [ht]
        simp]
      exact extractFromActual_obj_ne_none kvs
    · obtain ⟨t, kvs2, rfl⟩ := h r hl ht
      rw [show selectActual (Json.obj kvs) = some (Json.obj kvs2) from by
        simp only [selectActual]; rw [hl]; rfl]
      exact extractFromActual_obj_ne_none kvs2

/-- C5 witness: the amended theorem applied to a concrete object body. -/
theorem c5_witness : extract_clean_content (Json.obj [("markdown", Json.str "hello")]) ≠ none :=
  c5_amended_total_on_objects _ (fun r hr => by simp [List.lookup] at hr)

/-- C6, counterexample.  The claim states a non-None extract result is
never empty; the body whose `markdown` field is the non-empty string
`⟨1⟩` cleans to the empty string, and extract returns that empty string
(a non-None value). -/
theorem c6_counterexample :
    extract_clean_content (Json.obj [("markdown", Json.str "⟨1⟩")]) = some (some "") ∧
    ("⟨1⟩" : String) ≠ "" :=
  ⟨rfl, by decide⟩

/-- C6, amended.  A non-None result of extract is always the cleaned
content of the selected field — possibly the empty string; in particular a
non-empty `markdown` field yields exactly its cleaned content, which the
callers then treat as a miss via truthiness when it is empty. -/
theorem c6_amended_clean_result :
    (∀ m : String, m ≠ "" →
      extract_clean_content (Json.obj [("markdown", Json.str m)]) =
        some (some (clean_markdown_content m))) ∧
    (∀ (j : Json) (s : String), extract_clean_content j = some (some s) →
      ∃ c, s = clean_markdown_content c) := by
  constructor
  · intro m hm
    unfold extract_clean_content
    rw [show selectActual (Json.obj [("markdown", Json.str m)]) =
        some (Json.obj [("markdown", Json.str m)]) from rfl]
    exact extractFromActual_found [("markdown", Json.str m)] (Json.str m) rfl rfl
      (by simp [truthy, hm])
  · intro j s h
    unfold extract_clean_content at h
    split at h
    · exact absurd h (by simp)
    · exact extractFromActual_clean _ s h

/-- C6 witness: both conjuncts applied at concrete inputs. -/
theorem c6_witness :
    extract_clean_content (Json.obj [("markdown", Json.str "hello")]) =
      some (some (clean_markdown_content "hello")) ∧
    (∃ c, ("hi" : String) = clean_markdown_content c) :=
  ⟨c6_amended_clean_result.1 "hello" (by decide),
   c6_amended_clean_result.2 (Json.obj [("markdown", Json.str "hi")]) "hi" rfl⟩

/-- C7, counterexample.  The claim states the poller uses the first
endpoint of a round that returns HTTP 200 with a parseable status and
skips the remaining candidates of that round.  `pollOracleA` and
`pollOracleB` agree at round 0, endpoint 0 — a 200 response with the
parseable status `weird` — and differ only on later attempts; under the
claim both polls would behave identically, but the code consults the
second candidate of the same round: oracle A saves `Hi` from endpoint 1
of round 0 while oracle B times out. -/
theorem c7_counterexample :
    wait_for_completion pollOracleA = PollExit.saved "Hi" ∧
    wait_for_completion pollOracleB = PollExit.timedOut ∧
    pollOracleA 0 0 = unrecResp ∧ pollOracleB 0 0 = unrecResp :=
  ⟨rfl, rfl, rfl, rfl⟩

/-- C7, amended.  In every round the poller attempts the candidate
endpoints in order; a 200 response with a recognized status ends the round
at that endpoint (pending/running skips all remaining candidates and moves
to the next round, failed returns immediately), while a 200 response whose
status maps to Unrecognized is non-fatal: the poller moves on to the next
candidate of the same round, and a poll seeing only unrecognized statuses
keeps polling for all 24 rounds and ends in timeout rather than
aborting. -/
theorem c7_amended_round_behavior :
    (∀ x y : AttemptOutcome, processRound [pendingResp, x, y] = RoundResult.moveOn) ∧
    (∀ x y : AttemptOutcome,
      processRound [failedResp, x, y] = RoundResult.terminal PollExit.taskFailed) ∧
    (∀ rest : List AttemptOutcome, processRound (unrecResp :: rest) = processRound rest) ∧
    wait_for_completion (fun _ _ => unrecResp) = PollExit.timedOut :=
  ⟨fun _ _ => rfl, fun _ _ => rfl, fun _ => rfl, rfl⟩

/-- C8.  If every candidate endpoint returns a non-200 response in all 24
rounds, the poll terminates as a timeout — a reported failure, not an
unhandled fault — and no output file is written (`PollExit.saved` is the
only exit that writes a file). -/
theorem c8_all_non200_timeout (oracle : Nat → Nat → AttemptOutcome)
    (h : ∀ a e, a < 24 → e < 3 →
      ∃ code body, oracle a e = AttemptOutcome.resp code body ∧ code ≠ 200) :
    wait_for_completion oracle = PollExit.timedOut ∧
      ∀ s, wait_for_completion oracle ≠ PollExit.saved s := by
  have hmove : ∀ b, b < 0 + 24 → processRound (roundOutcomes oracle b) = RoundResult.moveOn := by
    intro b hb
    refine processRound_all_cont _ ?_
    intro o ho
    simp only [roundOutcomes, List.mem_cons, List.not_mem_nil, or_false] at ho
    rcases ho with ho | ho | ho
    · obtain ⟨code, body, heq, hne⟩ := h b 0 (by omega) (by omega)
      rw [ho, heq]
      exact classify_non200 code body hne
    · obtain ⟨code, body, heq, hne⟩ := h b 1 (by omega) (by omega)
      rw [ho, heq]
      exact classify_non200 code body hne
    · obtain ⟨code, body, heq, hne⟩ := h b 2 (by omega) (by omega)
      rw [ho, heq]
      exact classify_non200 code body hne
  have ht : wait_for_completion oracle = PollExit.timedOut :=
    pollGo_all_moveOn oracle 24 0 hmove
  refine ⟨ht, fun s hs => ?_⟩
  rw [ht] at hs
  exact PollExit.noConfusion hs

/-- C8 witness: the theorem applied to the constant-404 oracle. -/
theorem c8_witness :
    wait_for_completion (fun _ _ => AttemptOutcome.resp 404 none) = PollExit.timedOut ∧
    wait_for_completion (fun _ _ => AttemptOutcome.resp 404 none) ≠ PollExit.saved "x" := by
  have h := c8_all_non200_timeout (fun _ _ => AttemptOutcome.resp 404 none)
    (fun a e _ _ => ⟨404, none, rfl, by omega⟩)
  exact ⟨h.1, h.2 "x"⟩

/-- C9.  When a reachable polling round observes a 200 response whose
status maps to Completed and the extractor finds no recognized content in
the nested `result` field (or the whole body when that field is absent),
the poll reports the extraction failure immediately: the result is the
no-content exit, not a timeout, regardless of all later rounds. -/
theorem c9_completed_miss_immediate (oracle : Nat → Nat → AttemptOutcome)
    (a e : Nat) (kvs : List (String × Json))
    (ha : a < 24) (he : e < 3)
    (hrounds : ∀ b, b < a → processRound (roundOutcomes oracle b) = RoundResult.moveOn)
    (hbefore : ∀ i, i < e → classifyAttempt (oracle a i) = StepAction.cont)
    (hresp : oracle a e = AttemptOutcome.resp 200 (some (Json.obj kvs)))
    (hstatus : statusOf kvs = "completed" ∨ statusOf kvs = "success" ∨
      statusOf kvs = "finished")
    (hmiss : extract_clean_content (jsonGetD kvs "result" (Json.obj kvs)) = some none) :
    wait_for_completion oracle = PollExit.noContent := by
  have hcond : (statusOf kvs == "completed" || statusOf kvs == "success" ||
      statusOf kvs == "finished") = true := by
    rcases hstatus with hs | hs | hs <;> simp [hs]
  have hclass : classifyAttempt (oracle a e) = StepAction.ret PollExit.noContent := by
    rw [hresp]
    simp only [classifyAttempt, if_pos rfl, hcond, if_true, hmiss]
  have hround : processRound (roundOutcomes oracle a) = RoundResult.terminal PollExit.noContent := by
    interval_cases e
    · simp [processRound, roundOutcomes, hclass]
    · simp [processRound, roundOutcomes, hbefore 0 (by omega), hclass]
    · simp [processRound, roundOutcomes, hbefore 0 (by omega), hbefore 1 (by omega), hclass]
  unfold wait_for_completion
  refine pollGo_reach oracle PollExit.noContent a 0 24 ha ?_ ?_
  · intro i hi
    simpa using hrounds i hi
  · simpa using hround

/-- C9 witness: the theorem applied at round 0, endpoint 0, with a
completed status and a body with no recognized content field. -/
theorem c9_witness : wait_for_completion (fun _ _ => completedMiss) = PollExit.noContent :=
  c9_completed_miss_immediate (fun _ _ => completedMiss) 0 0
    [("status", Json.str "completed")] (by omega) (by omega)
    (fun b hb => absurd hb (by omega)) (fun i hi => absurd hi (by omega))
    rfl (Or.inl rfl) rfl

/-- C10.  For every URL string accepted by the normalizer the derived
filename is a stem of word characters and hyphens followed by the literal
suffix `.md` — no path separators, spaces or other characters. -/
theorem c10_filename_safe (u v : String) (h : clean_and_validate_url u = some v) :
    ∃ stem : String, get_filename_from_url v = some (stem ++ ".md") ∧
      (stem.data.all isFilenameChar) = true := by
  obtain ⟨p, hp, _, _⟩ := accepted_destruct u v h
  obtain ⟨stem, hs, hall⟩ := filenameOf_shape p
  refine ⟨stem, ?_, hall⟩
  unfold get_filename_from_url
  unfold pyUrlsplit at hp
  rw [hp]
  rw [show (some p).map filenameOf = some (filenameOf p) from rfl, hs]

/-- C10 witness: the theorem applied to the accepted input `example.com`. -/
theorem c10_witness :
    ∃ stem : String, get_filename_from_url "https://example.com" = some (stem ++ ".md") ∧
      (stem.data.all isFilenameChar) = true :=
  c10_filename_safe "example.com" "https://example.com" rfl

end Crawl
